import Mathlib

/-!
Verification of the SOLAR-PV-DETECTION pipeline core against its
natural-language specification.

Shallow embedding of the Python sources:
  * `pipeline code/quantify.py`  — detection-to-area quantification
  * `pipeline code/qc.py`        — quality-control decision
  * `pipeline code/inference.py` — per-location driver `process_row`
  * `pipeline code/utils.py`     — coordinate/tile math, placeholder
    detector, crop-window computation

Conventions: Python floats are embedded as exact rationals (`ℚ`) where the
code only does field arithmetic and comparisons, and as reals (`ℝ`) where
the code calls transcendental functions (`log2`, `cos`, `tan`, `sqrt`).
Python's `int(...)` truncation toward zero is `pyTrunc`/`pyTruncQ`;
NumPy boolean rasters are pixel predicates `ℕ → ℕ → Bool` counted over
a `Finset.range w ×ˢ Finset.range h` grid.
-/

namespace SolarPV

open Finset

/-- Python `int(x)` for a rational: truncation toward zero. -/
def pyTruncQ (q : ℚ) : ℤ := if 0 ≤ q then ⌊q⌋ else ⌈q⌉

/-! ### Data model: detections (detect.py output consumed by quantify.py) -/

/-- A segmentation mask as produced by the detector: a boolean raster of
shape `(mh, mw)` (rows × columns); `f x y` is the pixel in column `x`,
row `y`. -/
structure MaskData where
  mh : ℕ
  mw : ℕ
  f : ℕ → ℕ → Bool

/-- One detection, mirroring the dict `{"box": [x1,y1,x2,y2], "conf": c,
"cls": k, "mask": m-or-None}` built in `detect.predict_on_pil`. -/
structure Det where
  box : ℚ × ℚ × ℚ × ℚ
  conf : ℚ
  cls : ℤ
  mask : Option MaskData

/-- A placeholder detection used only as a `List.getD` default. -/
def dummyDet : Det := ⟨(0, 0, 0, 0), 0, 0, none⟩

/-- Number of true pixels of a boolean raster on the `w × h` grid. -/
def countPx (w h : ℕ) (f : ℕ → ℕ → Bool) : ℕ :=
  ((Finset.range w ×ˢ Finset.range h).filter (fun p => f p.1 p.2)).card

/-- Rasterized bounding box, from the fallback branch of
`compute_selected_panel_area`: `m[y1c:y2c, x1c:x2c] = True` with
`x1c = max(0, int(x1))`, `x2c = min(w-1, int(x2))` and likewise for `y`
(slice ends exclusive). -/
def boxMask (w h : ℕ) (box : ℚ × ℚ × ℚ × ℚ) : ℕ → ℕ → Bool :=
  fun x y =>
    let x1c : ℤ := max 0 (pyTruncQ box.1)
    let y1c : ℤ := max 0 (pyTruncQ box.2.1)
    let x2c : ℤ := min ((w : ℤ) - 1) (pyTruncQ box.2.2.1)
    let y2c : ℤ := min ((h : ℤ) - 1) (pyTruncQ box.2.2.2)
    decide (x1c ≤ (x : ℤ) ∧ (x : ℤ) < x2c ∧ y1c ≤ (y : ℤ) ∧ (y : ℤ) < y2c)

/-- Nearest-neighbour resampling of a mask to the image's `(w, h)` shape
(`Image.resize((w, h), resample=NEAREST)` in the source), sampling the
source raster at the centre of each destination pixel. -/
def nnResize (m : MaskData) (w h : ℕ) : ℕ → ℕ → Bool :=
  fun x y => m.f ((2 * x + 1) * m.mw / (2 * w)) ((2 * y + 1) * m.mh / (2 * h))

/-- The binary pixel mask derived for one detection inside the loop of
`compute_selected_panel_area`: the provided segmentation mask (resized to
`(h, w)` if its shape differs), else the rasterized bounding box. -/
def deriveMask (w h : ℕ) (d : Det) : ℕ → ℕ → Bool :=
  match d.mask with
  | none => boxMask w h d.box
  | some m => if m.mh = h ∧ m.mw = w then m.f else nnResize m w h

/-- The circular buffer mask: pixel `(x, y)` is inside iff
`(x - cx)^2 + (y - cy)^2 ≤ radius_px^2` with `cx = w // 2`, `cy = h // 2`. -/
def circleMask (w h : ℕ) (radiusPx : ℤ) : ℕ → ℕ → Bool :=
  fun x y =>
    decide (((x : ℤ) - (w : ℤ) / 2) ^ 2 + ((y : ℤ) - (h : ℤ) / 2) ^ 2 ≤ radiusPx ^ 2)

/-- Embeds `pixels_to_m2(num_pixels, meters_per_pixel)` from quantify.py. -/
def pixels_to_m2 (numPixels : ℕ) (metersPerPixel : ℚ) : ℚ :=
  (numPixels : ℚ) * metersPerPixel ^ 2

/-- The loop state of `compute_selected_panel_area`: `best_idx`,
`best_overlap`, `mask_pixels`, `selected_mask`. -/
structure QState where
  bestIdx : Option ℕ
  bestOverlap : ℕ
  maskPixels : ℕ
  selected : Option (ℕ → ℕ → Bool)

/-- The overlap score of one detection: pixel count of the logical AND of
its derived mask and the buffer circle. -/
def overlapScore (w h : ℕ) (circ : ℕ → ℕ → Bool) (d : Det) : ℕ :=
  countPx w h (fun x y => deriveMask w h d x y && circ x y)

/-- The `for idx, d in enumerate(detections)` loop of
`compute_selected_panel_area`: a strictly larger overlap score replaces the
running best (so ties keep the earliest detection). -/
def quantLoop (w h : ℕ) (circ : ℕ → ℕ → Bool) :
    List Det → ℕ → QState → QState
  | [], _, st => st
  | d :: rest, idx, st =>
      let ov := overlapScore w h circ d
      quantLoop w h circ rest (idx + 1)
        (if st.bestOverlap < ov then
          ⟨some idx, ov, countPx w h (deriveMask w h d), some (deriveMask w h d)⟩
         else st)

/-- Meters-per-pixel scale: `(2 * radius_m) / w`. -/
def metersPerPixel (w : ℕ) (radius_m : ℚ) : ℚ := 2 * radius_m / (w : ℚ)

/-- Buffer radius in pixels: `int(radius_m / meters_per_pixel)`. -/
def radiusPx (w : ℕ) (radius_m : ℚ) : ℤ :=
  pyTruncQ (radius_m / metersPerPixel w radius_m)

/-- Embeds `compute_selected_panel_area(detections, image_size_px, radius_m)`:
returns `(area_m2, mask_pixels, selected_mask)`. -/
def compute_selected_panel_area (dets : List Det) (w h : ℕ) (radius_m : ℚ) :
    ℚ × ℕ × Option (ℕ → ℕ → Bool) :=
  let mpp := metersPerPixel w radius_m
  let circ := circleMask w h (radiusPx w radius_m)
  let st := quantLoop w h circ dets 0 ⟨none, 0, 0, none⟩
  match st.bestIdx with
  | none => (0, 0, none)
  | some _ => (pixels_to_m2 st.maskPixels mpp, st.maskPixels, st.selected)

/-! ### Images and QC decision (qc.py) -/

/-- A decoded RGB raster of size `w × h`; `px x y` is the `(R, G, B)`
value of the pixel in column `x`, row `y`. -/
structure Img where
  w : ℕ
  h : ℕ
  px : ℕ → ℕ → ℕ × ℕ × ℕ

/-- Grayscale value of a pixel, PIL `convert('L')` (ITU-R 601-2 luma):
`L = (R * 299 + G * 587 + B * 114) / 1000`. -/
def grayAt (img : Img) (x y : ℕ) : ℕ :=
  ((img.px x y).1 * 299 + (img.px x y).2.1 * 587 + (img.px x y).2.2 * 114) / 1000

/-- Embeds `resolution_check(image)`: both dimensions at least 300 pixels. -/
def resolution_check (img : Img) : Bool :=
  decide (300 ≤ img.w ∧ 300 ≤ img.h)

/-- Mean grayscale value, `ImageStat.Stat(image.convert('L')).mean[0]`. -/
def meanGray (img : Img) : ℚ :=
  (∑ y ∈ Finset.range img.h, ∑ x ∈ Finset.range img.w, (grayAt img x y : ℚ)) /
    ((img.w : ℚ) * (img.h : ℚ))

/-- Embeds `brightness_check(image)`: mean luminance at least 20. -/
def brightness_check (img : Img) : Bool :=
  decide (20 ≤ meanGray img)

/-- Number of pixels whose grayscale value satisfies `p`. -/
def countGray (img : Img) (p : ℕ → Bool) : ℕ :=
  countPx img.w img.h (fun x y => p (grayAt img x y))

/-- Embeds `cloud_shadow_check(image)`: fails when the fraction of pixels
brighter than 220 or the fraction darker than 40 exceeds 0.4. -/
def cloud_shadow_check (img : Img) : Bool :=
  let sz : ℚ := (img.w : ℚ) * (img.h : ℚ)
  let brightFrac : ℚ := (countGray img (fun g => decide (220 < g)) : ℚ) / sz
  let darkFrac : ℚ := (countGray img (fun g => decide (g < 40)) : ℚ) / sz
  !decide (2 / 5 < brightFrac ∨ 2 / 5 < darkFrac)

/-- Embeds `qc_decision(image_pil, detections)` from qc.py: accumulates the
reason codes of the failed checks in the fixed order resolution,
brightness, cloud/shadow, detection presence, and returns
`("VERIFIABLE", [])` exactly when no reason accumulated. -/
def qc_decision (img : Img) (dets : List Det) : String × List String :=
  let reasons :=
    (if resolution_check img then [] else ["low_resolution"]) ++
    (if brightness_check img then [] else ["low_brightness"]) ++
    (if cloud_shadow_check img then [] else ["cloud_or_shadow"]) ++
    (if dets.isEmpty then ["no_detection"] else [])
  if reasons.isEmpty then ("VERIFIABLE", []) else ("NOT_VERIFIABLE", reasons)

/-! ### Per-location driver (inference.py `process_row`)

`fetch_for_coordinate` and `predict_on_pil` are external collaborators
(network and model); `process_row` is embedded as a function of two
oracles: `fetch` maps a buffer square-footage to the acquired
`(image, metadata, radius_m)` triple, `predict` maps an image to its
detection list.  `buffersFetched` records, in order, the buffer values
passed to `fetch_for_coordinate` during the run. -/

/-- Image provenance metadata `{source, zoom}` (with `capture_date` fixed
to `None` by `fetch_for_coordinate`). -/
structure Meta where
  source : String
  zoom : ℤ

/-- Python `max(d["conf"] for d in detections)` over a non-empty list
(0 for the empty list, which the code never takes the max of). -/
def maxConf : List Det → ℚ
  | [] => 0
  | d :: rest => rest.foldl (fun a x => max a x.conf) d.conf

/-- The local variables of one `process_row` run, just before the result
record is assembled, plus the trace of buffers passed to
`fetch_for_coordinate`. -/
structure RowState where
  area_m2 : ℚ
  confidence : ℚ
  bbox_or_mask : Option String
  img : Img
  metadata : Meta
  radius_m : ℚ
  chosen_buffer : ℕ
  qc : String × List String
  buffersFetched : List ℕ

/-- The body of `process_row` up to the assembly of the result record:
primary acquisition and detection, QC, quantification, and the
secondary-buffer retry taken exactly when the primary detection list is
empty. -/
def processRowState (fetch : ℕ → Img × Meta × ℚ) (predict : Img → List Det)
    (bufferPrimary bufferSecondary : ℕ) : RowState :=
  let fr := fetch bufferPrimary
  let img := fr.1
  let metadata := fr.2.1
  let radius_m := fr.2.2
  let dets := predict img
  let qc := qc_decision img dets
  if dets.isEmpty then
    let fr2 := fetch bufferSecondary
    let img2 := fr2.1
    let dets2 := predict img2
    if dets2.isEmpty then
      ⟨0, 0, none, img, metadata, radius_m, bufferPrimary, qc,
        [bufferPrimary, bufferSecondary]⟩
    else
      let q := compute_selected_panel_area dets2 img2.w img2.h fr2.2.2
      ⟨q.1, maxConf dets2, some (if q.2.2.isSome then "mask" else "bbox"),
        img2, fr2.2.1, fr2.2.2, bufferSecondary, qc_decision img2 dets2,
        [bufferPrimary, bufferSecondary]⟩
  else
    let q := compute_selected_panel_area dets img.w img.h radius_m
    ⟨q.1, maxConf dets, some (if q.2.2.isSome then "mask" else "bbox"),
      img, metadata, radius_m, bufferPrimary, qc, [bufferPrimary]⟩

/-- The per-location result record written by `process_row`. -/
structure RowRecord where
  sample_id : ℤ
  lat : ℚ
  lon : ℚ
  has_solar : Bool
  confidence : ℚ
  pv_area_sqm_est : ℚ
  buffer_radius_sqft : ℕ
  qc_status : String
  qc_reasons : List String
  bbox_or_mask : Option String
  image_metadata : Meta

/-- Python `round(x, 3)`: round to 3 decimal places (round to nearest;
the embedding rounds half upward — the code meets an exact half-tie only
on a measure-zero set not exercised here). -/
def round3 (q : ℚ) : ℚ := (round (1000 * q) : ℤ) / 1000

/-- `process_row(sample_id, lat, lon, ...)`: runs the pipeline for one
location and assembles the result record; in particular
`has_solar = bool(area_m2 > 0.1)` and
`pv_area_sqm_est = round(area_m2, 3)`. -/
def processRow (fetch : ℕ → Img × Meta × ℚ) (predict : Img → List Det)
    (bufferPrimary bufferSecondary : ℕ) (sampleId : ℤ) (lat lon : ℚ) :
    RowRecord :=
  let st := processRowState fetch predict bufferPrimary bufferSecondary
  { sample_id := sampleId
    lat := lat
    lon := lon
    has_solar := decide ((1 : ℚ) / 10 < st.area_m2)
    confidence := st.confidence
    pv_area_sqm_est := round3 st.area_m2
    buffer_radius_sqft := st.chosen_buffer
    qc_status := st.qc.1
    qc_reasons := st.qc.2
    bbox_or_mask := st.bbox_or_mask
    image_metadata := st.metadata }

/-! ### Placeholder detector (utils.py `is_no_data_tile`) -/

/-- Per-channel pixel sums of an RGB raster (numerators of
`np.mean(arr, axis=(0, 1))`). -/
def channelSums (img : Img) : ℚ × ℚ × ℚ :=
  (∑ y ∈ Finset.range img.h, ∑ x ∈ Finset.range img.w, ((img.px x y).1 : ℚ),
   ∑ y ∈ Finset.range img.h, ∑ x ∈ Finset.range img.w, ((img.px x y).2.1 : ℚ),
   ∑ y ∈ Finset.range img.h, ∑ x ∈ Finset.range img.w, ((img.px x y).2.2 : ℚ))

/-- Per-channel means `mean_color = np.mean(arr, axis=(0, 1))`. -/
def meanColor (img : Img) : ℚ × ℚ × ℚ :=
  let n : ℚ := (img.w : ℚ) * (img.h : ℚ)
  ((channelSums img).1 / n, (channelSums img).2.1 / n, (channelSums img).2.2 / n)

/-- Overall pixel variance `np.var(arr)`: mean squared deviation of every
array element (all three channels of every pixel) from the global mean. -/
def pixelVariance (img : Img) : ℚ :=
  let n3 : ℚ := 3 * ((img.w : ℚ) * (img.h : ℚ))
  let mu : ℚ := ((channelSums img).1 + (channelSums img).2.1 + (channelSums img).2.2) / n3
  (∑ y ∈ Finset.range img.h, ∑ x ∈ Finset.range img.w,
      ((((img.px x y).1 : ℚ) - mu) ^ 2 + (((img.px x y).2.1 : ℚ) - mu) ^ 2 +
        (((img.px x y).2.2 : ℚ) - mu) ^ 2)) / n3

/-- Embeds `np.std(mean_color) < 10`, stated on the square:
`std < 10 ↔ variance < 100` since both sides are nonnegative. -/
def isGrayCheck (img : Img) : Bool :=
  let m := meanColor img
  let mc : ℚ := (m.1 + m.2.1 + m.2.2) / 3
  decide (((m.1 - mc) ^ 2 + (m.2.1 - mc) ^ 2 + (m.2.2 - mc) ^ 2) / 3 < 100)

/-- Embeds `variance < 500`. -/
def isUniformCheck (img : Img) : Bool :=
  decide (pixelVariance img < 500)

/-- Embeds `np.all(np.abs(mean_color - 200) < 30)`. -/
def grayThresholdCheck (img : Img) : Bool :=
  let m := meanColor img
  decide (|m.1 - 200| < 30 ∧ |m.2.1 - 200| < 30 ∧ |m.2.2 - 200| < 30)

/-- A decoded tile as seen by `is_no_data_tile`: `np.array(img)` is
3-dimensional for an RGB image, 2-dimensional for a single-channel one. -/
inductive PyImage where
  | gray (w h : ℕ) (px : ℕ → ℕ → ℕ) : PyImage
  | rgb (img : Img) : PyImage

/-- Embeds `is_no_data_tile(img)` from utils.py: `None` is a placeholder; a
non-3-dimensional array skips every check and is not; an RGB raster is a
placeholder iff `(is_gray and is_uniform) or gray_threshold`. -/
def is_no_data_tile : Option PyImage → Bool
  | none => true
  | some (.gray _ _ _) => false
  | some (.rgb img) =>
      (isGrayCheck img && isUniformCheck img) || grayThresholdCheck img

/-- A uniform single-colour RGB raster. -/
def uniformImg (w h : ℕ) (c : ℕ × ℕ × ℕ) : Img := ⟨w, h, fun _ _ => c⟩

/-- A high-contrast checkerboard: pure white where `x + y` is even, pure
black where it is odd. -/
def checkerImg (w h : ℕ) : Img :=
  ⟨w, h, fun x y => if (x + y) % 2 = 0 then (255, 255, 255) else (0, 0, 0)⟩

/-! ### Crop window of the 3×3 stitched canvas (utils.py)

`download_osm_esri_tiles`, `download_bing_aerial` and
`download_osm_standard_map` all compute
`left = max(0, min(center_px - size // 2, 768 - size))` (and the same for
`top`) and crop the `size × size` window at `(left, top)` out of the
768×768 canvas. -/

/-- The clamped crop coordinate (used for both `left` and `top`). -/
def cropStart (center_px : ℤ) (size : ℕ) : ℤ :=
  max 0 (min (center_px - (size : ℤ) / 2) (768 - (size : ℤ)))

/-! ### Coordinate/tile math (utils.py), over ℝ -/

open Real in
/-- Embeds `sqft_to_radius_meters(sqft)`:
`sqrt(sqft / pi) * 0.3048`. -/
noncomputable def sqft_to_radius_meters (sqft : ℝ) : ℝ :=
  Real.sqrt (sqft / π) * 0.3048

open Real in
/-- Embeds `latlon_to_zoom_for_width(lat_deg, target_ground_width_m,
image_width_px)`: `max(0, min(18, int(round(log2(156543.03392 *
cos(radians(lat)) / (gw / ipw))))))`. -/
noncomputable def latlon_to_zoom_for_width (lat_deg gw ipw : ℝ) : ℤ :=
  max 0 (min 18 (round (Real.logb 2 ((156543.03392 * Real.cos (lat_deg * π / 180)) / (gw / ipw)))))

/-- Python `int(x)` for a real: truncation toward zero. -/
noncomputable def pyTrunc (x : ℝ) : ℤ := if 0 ≤ x then ⌊x⌋ else ⌈x⌉

open Real in
/-- Embeds `latlon_to_tile_fraction(lat, lon, zoom)` (defined identically inside
`download_bing_aerial`, `download_osm_esri_tiles` and
`download_osm_standard_map`): the fractional Web-Mercator tile
coordinates. -/
noncomputable def latlon_to_tile_fraction (lat lon : ℝ) (zoom : ℕ) : ℝ × ℝ :=
  let n : ℝ := 2 ^ zoom
  (((lon + 180) / 360) * n,
   ((1 - Real.log (Real.tan (lat * π / 180) + 1 / Real.cos (lat * π / 180)) / π) / 2) * n)

/-- Embeds `latlon_to_tile(lat, lon, zoom)`: the same expressions passed through
Python `int(...)`. -/
noncomputable def latlon_to_tile (lat lon : ℝ) (zoom : ℕ) : ℤ × ℤ :=
  (pyTrunc (latlon_to_tile_fraction lat lon zoom).1,
   pyTrunc (latlon_to_tile_fraction lat lon zoom).2)

/-! ### Concrete inputs used by the witness and counterexample theorems -/

/-- A 4×4 mid-gray test image. -/
def img4 : Img := uniformImg 4 4 (100, 100, 100)

/-- Test provenance metadata. -/
def meta0 : Meta := ⟨"esri_world_imagery", 17⟩

/-- A detection whose mask covers the whole 4×4 image. -/
def det1 : Det := ⟨(0, 0, 4, 4), 1 / 2, 0, some ⟨4, 4, fun _ _ => true⟩⟩

/-- A fetch oracle returning `img4` with buffer radius `99/625` m:
at width 4 this gives `meters_per_pixel = 99/1250`, so the 16-pixel full
mask quantifies to `16 * (99/1250)^2 = 0.10036224` m² — strictly above
0.1 but rounding to 0.100 at 3 decimals. -/
def fetchC1 : ℕ → Img × Meta × ℚ := fun _ => (img4, meta0, 99 / 625)

/-- A predict oracle that always returns the single detection `det1`. -/
def predictC1 : Img → List Det := fun _ => [det1]

/-- A fetch oracle for the no-detection scenario. -/
def fetchC5 : ℕ → Img × Meta × ℚ := fun _ => (img4, meta0, 1)

/-- A predict oracle that never detects anything. -/
def predictC5 : Img → List Det := fun _ => []

/-! ## Theorems -/

/-- C10. `is_no_data_tile` is total over its optional input: `None` is
treated as a placeholder (returns true), and every image whose decoded
pixel array is not 3-dimensional (e.g. single-channel grayscale) returns
false regardless of pixel values. -/
theorem c10_is_no_data_tile_total :
    is_no_data_tile none = true ∧
      ∀ (w h : ℕ) (px : ℕ → ℕ → ℕ), is_no_data_tile (some (.gray w h px)) = false :=
  ⟨rfl, fun _ _ _ => rfl⟩

/-- C9 fails as stated: with requested size 769 on the
768-wide canvas. -/
theorem c9_counterexample :
    ¬(cropStart 384 769 + (769 : ℤ) ≤ 768) := by decide

/-- C9, amended. For every sub-pixel offset (hence every canvas
centre coordinate) and every requested size **not exceeding 768**, the
crop window `[left, left+size) × [top, top+size)` with
`left = max(0, min(center - size // 2, 768 - size))` lies entirely within
the 768×768 canvas; the original claim fails for sizes above 768
(`c9_counterexample`). -/
theorem c9_crop_window_within_canvas (cx cy : ℤ) (size : ℕ)
    (hsize : size ≤ 768) :
    0 ≤ cropStart cx size ∧ 0 ≤ cropStart cy size ∧
      cropStart cx size + (size : ℤ) ≤ 768 ∧
      cropStart cy size + (size : ℤ) ≤ 768 := by
  have hb : (0 : ℤ) ≤ 768 - (size : ℤ) := by
    have : (size : ℤ) ≤ 768 := by exact_mod_cast hsize
    omega
  have key : ∀ c : ℤ, cropStart c size + (size : ℤ) ≤ 768 := by
    intro c
    have h1 : min (c - (size : ℤ) / 2) (768 - (size : ℤ)) ≤ 768 - (size : ℤ) :=
      min_le_right _ _
    have h2 : cropStart c size ≤ 768 - (size : ℤ) := max_le hb h1
    omega
  exact ⟨le_max_left _ _, le_max_left _ _, key cx, key cy⟩

/-- Closed instance of `c9_crop_window_within_canvas` at the pipeline's
actual crop size 640. -/
theorem c9_crop_window_within_canvas_witness :
    0 ≤ cropStart 384 640 ∧ 0 ≤ cropStart 384 640 ∧
      cropStart 384 640 + (640 : ℤ) ≤ 768 ∧
      cropStart 384 640 + (640 : ℤ) ≤ 768 :=
  c9_crop_window_within_canvas 384 384 640 (by decide)

/-- C4. `qc_decision` evaluates all four checks independently: the
status is `VERIFIABLE` with an empty reasons list iff every check passed,
`NOT_VERIFIABLE` iff some reason accumulated, and each failed check
contributes exactly its reason code, listed in the fixed order
low_resolution, low_brightness, cloud_or_shadow, no_detection. -/
theorem c4_qc_decision_spec (img : Img) (dets : List Det) :
    ((qc_decision img dets).1 = "VERIFIABLE" ↔ (qc_decision img dets).2 = [])
    ∧ ((qc_decision img dets).1 = "NOT_VERIFIABLE" ↔ (qc_decision img dets).2 ≠ [])
    ∧ ((qc_decision img dets).2 = [] ↔
        (resolution_check img = true ∧ brightness_check img = true ∧
          cloud_shadow_check img = true ∧ dets ≠ []))
    ∧ (qc_decision img dets).2.Sublist
        ["low_resolution", "low_brightness", "cloud_or_shadow", "no_detection"]
    ∧ ("low_resolution" ∈ (qc_decision img dets).2 ↔ resolution_check img = false)
    ∧ ("low_brightness" ∈ (qc_decision img dets).2 ↔ brightness_check img = false)
    ∧ ("cloud_or_shadow" ∈ (qc_decision img dets).2 ↔ cloud_shadow_check img = false)
    ∧ ("no_detection" ∈ (qc_decision img dets).2 ↔ dets = []) := by
  cases hR : resolution_check img <;> cases hB : brightness_check img <;>
    cases hC : cloud_shadow_check img <;> cases hD : dets <;>
    simp [qc_decision, hR, hB, hC]

/-! ### Loop invariants of `compute_selected_panel_area` -/

/-- The AND of a mask with the circle never has more pixels than the mask. -/
theorem countPx_and_le (w h : ℕ) (f g : ℕ → ℕ → Bool) :
    countPx w h (fun x y => f x y && g x y) ≤ countPx w h f := by
  apply Finset.card_le_card
  apply Finset.monotone_filter_right
  intro p hfg
  exact (Bool.and_eq_true _ _ ▸ hfg).1

/-- Once some detection has been selected, the loop never unselects. -/
theorem quantLoop_isSome (w h : ℕ) (circ : ℕ → ℕ → Bool) (dets : List Det)
    (idx : ℕ) (st : QState) (hst : st.bestIdx ≠ none) :
    (quantLoop w h circ dets idx st).bestIdx ≠ none := by
  induction dets generalizing idx st with
  | nil => exact hst
  | cons d rest ih =>
      simp only [quantLoop]
      split
      · exact ih _ _ (by simp)
      · exact ih _ _ hst

/-- Starting from an unselected state with zero best overlap, the loop ends
unselected iff every remaining detection has zero overlap score. -/
theorem quantLoop_none_iff (w h : ℕ) (circ : ℕ → ℕ → Bool) (dets : List Det)
    (idx : ℕ) (st : QState) (h1 : st.bestIdx = none) (h2 : st.bestOverlap = 0) :
    ((quantLoop w h circ dets idx st).bestIdx = none ↔
      ∀ d ∈ dets, overlapScore w h circ d = 0) := by
  induction dets generalizing idx st with
  | nil => simp [quantLoop, h1]
  | cons d rest ih =>
      simp only [quantLoop, h2]
      by_cases hov : 0 < overlapScore w h circ d
      · rw [if_pos hov]
        constructor
        · intro hend
          exact absurd hend (quantLoop_isSome w h circ rest (idx + 1) _ (by simp))
        · intro hall
          exact absurd (hall d (by simp)) (by omega)
      · rw [if_neg hov]
        rw [ih _ _ h1 h2]
        constructor
        · intro hall e he
          rcases List.mem_cons.mp he with rfl | he'
          · omega
          · exact hall e he'
        · intro hall e he
          exact hall e (List.mem_cons_of_mem _ he)

/-- If an unselected state ends selected — or a selected state is
maintained — the selected mask's total pixel count bounds the running best
overlap from above, which stays positive. -/
theorem quantLoop_pixels_pos (w h : ℕ) (circ : ℕ → ℕ → Bool) (dets : List Det)
    (idx : ℕ) (st : QState)
    (hst : st.bestIdx ≠ none → 0 < st.bestOverlap ∧ st.bestOverlap ≤ st.maskPixels) :
    (quantLoop w h circ dets idx st).bestIdx ≠ none →
      0 < (quantLoop w h circ dets idx st).bestOverlap ∧
        (quantLoop w h circ dets idx st).bestOverlap ≤
          (quantLoop w h circ dets idx st).maskPixels := by
  induction dets generalizing idx st with
  | nil => exact hst
  | cons d rest ih =>
      simp only [quantLoop]
      split
      · next hlt =>
          apply ih
          intro _
          dsimp only
          exact ⟨by omega, countPx_and_le w h (deriveMask w h d) circ⟩
      · exact ih _ _ hst

/-- C2. `compute_selected_panel_area` returns `(0, 0, none)` exactly
when no detection's derived mask has a positive-pixel-count intersection
with the buffer circle, and the returned area is never negative. -/
theorem c2_zero_area_iff_no_overlap (dets : List Det) (w h : ℕ) (radius_m : ℚ)
    (hw : 0 < w) (hr : 0 < radius_m) :
    (compute_selected_panel_area dets w h radius_m = (0, 0, none) ↔
      ∀ d ∈ dets,
        overlapScore w h (circleMask w h (radiusPx w radius_m)) d = 0)
    ∧ 0 ≤ (compute_selected_panel_area dets w h radius_m).1 := by
  have hmpp : 0 < metersPerPixel w radius_m := by
    unfold metersPerPixel
    positivity
  set circ := circleMask w h (radiusPx w radius_m) with hcirc
  have hnone := quantLoop_none_iff w h circ dets 0 ⟨none, 0, 0, none⟩ rfl rfl
  have hpos := quantLoop_pixels_pos w h circ dets 0 ⟨none, 0, 0, none⟩ (by simp)
  unfold compute_selected_panel_area
  rw [← hcirc]
  cases hend : (quantLoop w h circ dets 0 ⟨none, 0, 0, none⟩).bestIdx with
  | none =>
      simp only [hend]
      rw [hend] at hnone
      constructor
      · simpa using hnone
      · simp
  | some i =>
      simp only [hend]
      rw [hend] at hnone hpos
      have hmask : 0 < (quantLoop w h circ dets 0 ⟨none, 0, 0, none⟩).maskPixels := by
        have := hpos (by simp)
        omega
      have harea : 0 < pixels_to_m2
          (quantLoop w h circ dets 0 ⟨none, 0, 0, none⟩).maskPixels
          (metersPerPixel w radius_m) := by
        unfold pixels_to_m2
        have : (0:ℚ) < ((quantLoop w h circ dets 0 ⟨none, 0, 0, none⟩).maskPixels : ℚ) := by
          exact_mod_cast hmask
        positivity
      constructor
      · constructor
        · intro heq
          exact absurd (congrArg Prod.fst heq) (by simp; linarith)
        · intro hall
          have : (some i : Option ℕ) = none := by
            rw [← hnone.2 hall]
          simp at this
      · exact le_of_lt harea

/-- Closed instance of `c2_zero_area_iff_no_overlap` on an empty detection
list over a 4×4 image with buffer radius 2 m. -/
theorem c2_zero_area_iff_no_overlap_witness :
    ((0 : ℕ) < 4 ∧ (0 : ℚ) < 2) ∧
      ((compute_selected_panel_area [] 4 4 2 = (0, 0, none) ↔
          ∀ d ∈ ([] : List Det),
            overlapScore 4 4 (circleMask 4 4 (radiusPx 4 2)) d = 0)
        ∧ 0 ≤ (compute_selected_panel_area [] 4 4 2).1) :=
  ⟨⟨by norm_num, by norm_num⟩,
    c2_zero_area_iff_no_overlap [] 4 4 2 (by norm_num) (by norm_num)⟩

/-- Full characterization of the selection loop: either no detection ever
beat the incoming state (which is then returned unchanged), or the final
state records the earliest detection attaining the strictly largest
overlap score — strictly above the incoming best, above every other score,
and strictly above every earlier score — together with that detection's
total mask pixel count and mask. -/
theorem quantLoop_char (w h : ℕ) (circ : ℕ → ℕ → Bool) (dets : List Det)
    (idx : ℕ) (st : QState) :
    (quantLoop w h circ dets idx st = st ∧
      ∀ j < dets.length, overlapScore w h circ (dets.getD j dummyDet) ≤ st.bestOverlap)
    ∨ (∃ j < dets.length,
        (quantLoop w h circ dets idx st).bestIdx = some (idx + j) ∧
        (quantLoop w h circ dets idx st).bestOverlap =
          overlapScore w h circ (dets.getD j dummyDet) ∧
        (quantLoop w h circ dets idx st).maskPixels =
          countPx w h (deriveMask w h (dets.getD j dummyDet)) ∧
        (quantLoop w h circ dets idx st).selected =
          some (deriveMask w h (dets.getD j dummyDet)) ∧
        st.bestOverlap < (quantLoop w h circ dets idx st).bestOverlap ∧
        (∀ i < dets.length,
          overlapScore w h circ (dets.getD i dummyDet) ≤
            (quantLoop w h circ dets idx st).bestOverlap) ∧
        (∀ i < j,
          overlapScore w h circ (dets.getD i dummyDet) <
            (quantLoop w h circ dets idx st).bestOverlap)) := by
  induction dets generalizing idx st with
  | nil => exact Or.inl ⟨rfl, by simp⟩
  | cons d rest ih =>
      simp only [quantLoop]
      by_cases hlt : st.bestOverlap < overlapScore w h circ d
      · rw [if_pos hlt]
        rcases ih (idx + 1)
            ⟨some idx, overlapScore w h circ d,
              countPx w h (deriveMask w h d), some (deriveMask w h d)⟩ with
          ⟨heq, hall⟩ | ⟨j, hj, h1, h2, h3, h4, h5, h6, h7⟩
        · refine Or.inr ⟨0, by simp, ?_⟩
          rw [heq]
          refine ⟨by simp, by simp, by simp, by simp, by simpa using hlt, ?_, by omega⟩
          intro i hi
          match i with
          | 0 => simp
          | Nat.succ i' =>
              simpa using hall i' (by simpa using hi)
        · refine Or.inr ⟨j + 1, by simpa using hj, ?_⟩
          have hidx : idx + 1 + j = idx + (j + 1) := by omega
          rw [hidx] at h1
          refine ⟨by simpa using h1, by simpa using h2, by simpa using h3,
            by simpa using h4, by dsimp only at h5; omega, ?_, ?_⟩
          · intro i hi
            match i with
            | 0 =>
                have : overlapScore w h circ d <
                    (quantLoop w h circ rest (idx + 1)
                      ⟨some idx, overlapScore w h circ d,
                        countPx w h (deriveMask w h d),
                        some (deriveMask w h d)⟩).bestOverlap := by
                  dsimp only at h5
                  exact h5
                simpa using le_of_lt this
            | Nat.succ i' =>
                simpa using h6 i' (by simpa using hi)
          · intro i hi
            match i with
            | 0 =>
                dsimp only at h5
                simpa using h5
            | Nat.succ i' =>
                simpa using h7 i' (by omega)
      · rw [if_neg hlt]
        rcases ih (idx + 1) st with ⟨heq, hall⟩ | ⟨j, hj, h1, h2, h3, h4, h5, h6, h7⟩
        · refine Or.inl ⟨heq, ?_⟩
          intro i hi
          match i with
          | 0 => simpa using Nat.le_of_not_lt hlt
          | Nat.succ i' =>
              simpa using hall i' (by simpa using hi)
        · refine Or.inr ⟨j + 1, by simpa using hj, ?_⟩
          have hidx : idx + 1 + j = idx + (j + 1) := by omega
          rw [hidx] at h1
          refine ⟨by simpa using h1, by simpa using h2, by simpa using h3,
            by simpa using h4, h5, ?_, ?_⟩
          · intro i hi
            match i with
            | 0 =>
                have h0 : overlapScore w h circ d ≤ st.bestOverlap :=
                  Nat.le_of_not_lt hlt
                simpa using le_trans h0 (le_of_lt h5)
            | Nat.succ i' =>
                simpa using h6 i' (by simpa using hi)
          · intro i hi
            match i with
            | 0 =>
                have h0 : overlapScore w h circ d ≤ st.bestOverlap :=
                  Nat.le_of_not_lt hlt
                simpa using lt_of_le_of_lt h0 h5
            | Nat.succ i' =>
                simpa using h7 i' (by omega)

/-- C3. When at least one detection has positive overlap with the
buffer circle, `compute_selected_panel_area` selects the detection whose
mask-AND-circle pixel count is strictly largest (the earliest on ties, so
every earlier detection scores strictly lower), and the returned area is
the selected detection's **total** mask pixel count times
`metersPerPixel^2` with `metersPerPixel = 2*radius_m/width`. -/
theorem c3_selects_largest_overlap (dets : List Det) (w h : ℕ) (radius_m : ℚ)
    (hex : ∃ j < dets.length,
      0 < overlapScore w h (circleMask w h (radiusPx w radius_m))
            (dets.getD j dummyDet)) :
    ∃ k < dets.length,
      (∀ i < dets.length,
        overlapScore w h (circleMask w h (radiusPx w radius_m)) (dets.getD i dummyDet) ≤
          overlapScore w h (circleMask w h (radiusPx w radius_m)) (dets.getD k dummyDet)) ∧
      (∀ i < k,
        overlapScore w h (circleMask w h (radiusPx w radius_m)) (dets.getD i dummyDet) <
          overlapScore w h (circleMask w h (radiusPx w radius_m)) (dets.getD k dummyDet)) ∧
      (compute_selected_panel_area dets w h radius_m).1 =
        (countPx w h (deriveMask w h (dets.getD k dummyDet)) : ℚ) *
          metersPerPixel w radius_m ^ 2 ∧
      (compute_selected_panel_area dets w h radius_m).2.1 =
        countPx w h (deriveMask w h (dets.getD k dummyDet)) ∧
      (compute_selected_panel_area dets w h radius_m).2.2 =
        some (deriveMask w h (dets.getD k dummyDet)) := by
  set circ := circleMask w h (radiusPx w radius_m) with hcirc
  rcases quantLoop_char w h circ dets 0 ⟨none, 0, 0, none⟩ with
    ⟨_, hall⟩ | ⟨j, hj, h1, h2, h3, h4, _, h6, h7⟩
  · obtain ⟨j, hj, hpos⟩ := hex
    have h0 := hall j hj
    dsimp only at h0
    omega
  · refine ⟨j, hj, ?_, ?_, ?_⟩
    · intro i hi
      have hle := h6 i hi
      rw [h2] at hle
      exact hle
    · intro i hi
      have hlt := h7 i hi
      rw [h2] at hlt
      exact hlt
    · unfold compute_selected_panel_area
      rw [← hcirc]
      cases hend : (quantLoop w h circ dets 0 ⟨none, 0, 0, none⟩).bestIdx with
      | none => rw [hend] at h1; exact absurd h1 (by simp)
      | some i =>
          simp only [hend]
          simp only [pixels_to_m2, h3, h4]
          exact ⟨trivial, trivial, trivial⟩

unseal Rat.mul Rat.add Rat.inv Rat.sub in
/-- Closed instance of `c3_selects_largest_overlap`: the single full-mask
detection `det1` over a 4×4 image with buffer radius `99/625` m. -/
theorem c3_selects_largest_overlap_witness :
    (∃ j < [det1].length,
      0 < overlapScore 4 4 (circleMask 4 4 (radiusPx 4 (99 / 625)))
            ([det1].getD j dummyDet)) ∧
    (∃ k < [det1].length,
      (∀ i < [det1].length,
        overlapScore 4 4 (circleMask 4 4 (radiusPx 4 (99 / 625))) ([det1].getD i dummyDet) ≤
          overlapScore 4 4 (circleMask 4 4 (radiusPx 4 (99 / 625))) ([det1].getD k dummyDet)) ∧
      (∀ i < k,
        overlapScore 4 4 (circleMask 4 4 (radiusPx 4 (99 / 625))) ([det1].getD i dummyDet) <
          overlapScore 4 4 (circleMask 4 4 (radiusPx 4 (99 / 625))) ([det1].getD k dummyDet)) ∧
      (compute_selected_panel_area [det1] 4 4 (99 / 625)).1 =
        (countPx 4 4 (deriveMask 4 4 ([det1].getD k dummyDet)) : ℚ) *
          metersPerPixel 4 (99 / 625) ^ 2 ∧
      (compute_selected_panel_area [det1] 4 4 (99 / 625)).2.1 =
        countPx 4 4 (deriveMask 4 4 ([det1].getD k dummyDet)) ∧
      (compute_selected_panel_area [det1] 4 4 (99 / 625)).2.2 =
        some (deriveMask 4 4 ([det1].getD k dummyDet))) :=
  ⟨⟨0, by decide, by decide⟩,
    c3_selects_largest_overlap [det1] 4 4 (99 / 625) ⟨0, by decide, by decide⟩⟩

unseal Rat.mul Rat.add Rat.inv Rat.sub in
/-- C1 fails as stated on the code ("has_solar iff pv_area_sqm_est > 0.1"): with
buffer radius `99/625` m over a 4×4 image and a full 16-pixel mask, the
unrounded area is `0.10036224` m², so `has_solar` is true, while the
3-decimal-rounded `pv_area_sqm_est` is exactly `0.1`, not above it. -/
theorem c1_counterexample :
    (processRow fetchC1 predictC1 1200 2400 7 0 0).has_solar = true ∧
      ¬((1 : ℚ) / 10 <
        (processRow fetchC1 predictC1 1200 2400 7 0 0).pv_area_sqm_est) := by
  constructor
  · decide
  · decide

/-- C1, amended. In every record produced by `process_row`,
`has_solar` is true iff the **unrounded** computed area `area_m2` is
strictly greater than 0.1 (the original claim, stated with the rounded
`pv_area_sqm_est`, fails: see `c1_counterexample`). -/
theorem c1_has_solar_iff_area (fetch : ℕ → Img × Meta × ℚ)
    (predict : Img → List Det) (bp bs : ℕ) (sid : ℤ) (lat lon : ℚ) :
    (processRow fetch predict bp bs sid lat lon).has_solar = true ↔
      (1 : ℚ) / 10 < (processRowState fetch predict bp bs).area_m2 := by
  simp [processRow]

/-- Every QC verdict computed on an empty detection list carries the
`no_detection` reason. -/
theorem qc_no_detection_mem (img : Img) :
    "no_detection" ∈ (qc_decision img []).2 := by
  cases hR : resolution_check img <;> cases hB : brightness_check img <;>
    cases hC : cloud_shadow_check img <;> simp [qc_decision, hR, hB, hC]

/-- C5. If the primary-buffer acquisition yields zero detections,
`process_row` performs a secondary acquisition at the larger buffer (the
fetch trace is exactly `[primary, secondary]`) before classifying the
location; and if the secondary acquisition also yields zero detections,
the record has `has_solar = false` and `no_detection` among its
`qc_reasons`. -/
theorem c5_secondary_buffer_retry (fetch : ℕ → Img × Meta × ℚ)
    (predict : Img → List Det) (bp bs : ℕ) (sid : ℤ) (lat lon : ℚ)
    (h1 : predict (fetch bp).1 = []) :
    (processRowState fetch predict bp bs).buffersFetched = [bp, bs] ∧
      (predict (fetch bs).1 = [] →
        (processRow fetch predict bp bs sid lat lon).has_solar = false ∧
          "no_detection" ∈ (processRow fetch predict bp bs sid lat lon).qc_reasons) := by
  constructor
  · simp only [processRowState, h1, List.isEmpty_nil, if_true]
    by_cases h2 : (predict (fetch bs).1).isEmpty <;> simp [h2]
  · intro h2
    simp only [processRow, processRowState, h1, h2, List.isEmpty_nil, if_true]
    refine ⟨by norm_num, ?_⟩
    exact qc_no_detection_mem (fetch bp).1

/-- Closed instance of `c5_secondary_buffer_retry`: oracles that never
detect anything, with the pipeline's default buffers 1200 and 2400. -/
theorem c5_secondary_buffer_retry_witness :
    predictC5 (fetchC5 1200).1 = [] ∧
      (processRowState fetchC5 predictC5 1200 2400).buffersFetched = [1200, 2400] ∧
      (processRow fetchC5 predictC5 1200 2400 0 0 0).has_solar = false ∧
      "no_detection" ∈ (processRow fetchC5 predictC5 1200 2400 0 0 0).qc_reasons :=
  ⟨rfl, (c5_secondary_buffer_retry fetchC5 predictC5 1200 2400 0 0 0 rfl).1,
    ((c5_secondary_buffer_retry fetchC5 predictC5 1200 2400 0 0 0 rfl).2 rfl).1,
    ((c5_secondary_buffer_retry fetchC5 predictC5 1200 2400 0 0 0 rfl).2 rfl).2⟩

/-- Rounding to the nearest integer is monotone. -/
theorem round_mono_real {x y : ℝ} (h : x ≤ y) : round x ≤ round y := by
  rw [round_eq, round_eq]
  exact Int.floor_mono (by linarith)

/-- C6. `latlon_to_zoom_for_width` computes
`round(log2(156543.03392 * cos(lat_rad) / (groundWidth/imageWidth)))`
clamped into `[0, 18]`, and for a fixed latitude strictly inside
`(-90, 90)` and fixed positive image width it is monotonically
non-increasing in the requested ground width. -/
theorem c6_zoom_formula_and_antitone (lat ipw gw₁ gw₂ : ℝ)
    (hlat₁ : -90 < lat) (hlat₂ : lat < 90)
    (hgw₁ : 0 < gw₁) (hle : gw₁ ≤ gw₂) (hipw : 0 < ipw) :
    latlon_to_zoom_for_width lat gw₁ ipw =
      max 0 (min 18 (round (Real.logb 2
        ((156543.03392 * Real.cos (lat * Real.pi / 180)) / (gw₁ / ipw))))) ∧
      latlon_to_zoom_for_width lat gw₂ ipw ≤ latlon_to_zoom_for_width lat gw₁ ipw := by
  refine ⟨rfl, ?_⟩
  have hpi := Real.pi_pos
  have hcos : 0 < Real.cos (lat * Real.pi / 180) := by
    apply Real.cos_pos_of_mem_Ioo
    constructor
    · have : -90 * (Real.pi / 180) < lat * (Real.pi / 180) :=
        mul_lt_mul_of_pos_right hlat₁ (by positivity)
      calc -(Real.pi / 2) = -90 * (Real.pi / 180) := by ring
        _ < lat * (Real.pi / 180) := this
        _ = lat * Real.pi / 180 := by ring
    · have : lat * (Real.pi / 180) < 90 * (Real.pi / 180) :=
        mul_lt_mul_of_pos_right hlat₂ (by positivity)
      calc lat * Real.pi / 180 = lat * (Real.pi / 180) := by ring
        _ < 90 * (Real.pi / 180) := this
        _ = Real.pi / 2 := by ring
  have hC : 0 < 156543.03392 * Real.cos (lat * Real.pi / 180) := by positivity
  have hgw₂ : 0 < gw₂ := lt_of_lt_of_le hgw₁ hle
  have hm : gw₁ / ipw ≤ gw₂ / ipw := div_le_div_of_nonneg_right hle (le_of_lt hipw)
  have harg₂pos : 0 < (156543.03392 * Real.cos (lat * Real.pi / 180)) / (gw₂ / ipw) :=
    div_pos hC (div_pos hgw₂ hipw)
  have hargle : (156543.03392 * Real.cos (lat * Real.pi / 180)) / (gw₂ / ipw) ≤
      (156543.03392 * Real.cos (lat * Real.pi / 180)) / (gw₁ / ipw) :=
    div_le_div_of_nonneg_left (le_of_lt hC) (div_pos hgw₁ hipw) hm
  have hlog : Real.logb 2 ((156543.03392 * Real.cos (lat * Real.pi / 180)) / (gw₂ / ipw)) ≤
      Real.logb 2 ((156543.03392 * Real.cos (lat * Real.pi / 180)) / (gw₁ / ipw)) :=
    Real.logb_le_logb_of_le (by norm_num) harg₂pos hargle
  unfold latlon_to_zoom_for_width
  exact max_le_max le_rfl (min_le_min le_rfl (round_mono_real hlog))

/-- Closed instance of `c6_zoom_formula_and_antitone` at the equator with
the pipeline's 640-pixel image width, ground widths 640 m and 1280 m. -/
theorem c6_zoom_formula_and_antitone_witness :
    latlon_to_zoom_for_width 0 640 640 =
      max 0 (min 18 (round (Real.logb 2
        ((156543.03392 * Real.cos (0 * Real.pi / 180)) / (640 / 640))))) ∧
      latlon_to_zoom_for_width 0 1280 640 ≤ latlon_to_zoom_for_width 0 640 640 :=
  c6_zoom_formula_and_antitone 0 640 640 1280 (by norm_num) (by norm_num)
    (by norm_num) (by norm_num) (by norm_num)

/-- C8, amended. Whenever both fractional tile coordinates are
nonnegative (which holds for longitudes in `[-180, 180]` and latitudes
within the Web-Mercator tile range `|lat| ≲ 85.051°`), the integer tile
coordinates of `latlon_to_tile` are the component-wise floor of
`latlon_to_tile_fraction`; the original unrestricted claim fails at
latitude 89° (`c8_counterexample`) because Python `int()` truncates the
then-negative fractional `y` toward zero instead of flooring it. -/
theorem c8_tile_floor_of_fraction (lat lon : ℝ) (zoom : ℕ)
    (h1 : 0 ≤ (latlon_to_tile_fraction lat lon zoom).1)
    (h2 : 0 ≤ (latlon_to_tile_fraction lat lon zoom).2) :
    latlon_to_tile lat lon zoom =
      (⌊(latlon_to_tile_fraction lat lon zoom).1⌋,
       ⌊(latlon_to_tile_fraction lat lon zoom).2⌋) := by
  unfold latlon_to_tile pyTrunc
  rw [if_pos h1, if_pos h2]

/-- Closed instance of `c8_tile_floor_of_fraction` at the origin with
zoom 0. -/
theorem c8_tile_floor_of_fraction_witness :
    latlon_to_tile 0 0 0 =
      (⌊(latlon_to_tile_fraction 0 0 0).1⌋, ⌊(latlon_to_tile_fraction 0 0 0).2⌋) := by
  have hpi := Real.pi_pos
  apply c8_tile_floor_of_fraction
  · unfold latlon_to_tile_fraction
    norm_num
  · unfold latlon_to_tile_fraction
    simp [Real.tan_zero, Real.cos_zero, Real.log_one]

set_option maxHeartbeats 1000000 in
/-- C8 fails as stated on the code: at latitude 89°, longitude 0,
zoom 1, the fractional y tile coordinate lies in (-1, 0), so its floor is
-1 while Python `int()` truncation yields 0. -/
theorem c8_counterexample :
    latlon_to_tile 89 0 1 ≠
      (⌊(latlon_to_tile_fraction 89 0 1).1⌋, ⌊(latlon_to_tile_fraction 89 0 1).2⌋) := by
  have hpi := Real.pi_pos
  have hpi_gt : (3.14 : ℝ) < Real.pi := Real.pi_gt_d2
  have hpi_lt : Real.pi < 3.15 := Real.pi_lt_d2
  set x : ℝ := Real.pi / 180 with hx
  have hx_pos : 0 < x := by positivity
  have hx_lt : x < 0.0175 := by rw [hx]; nlinarith
  have hx_gt : (0.01744 : ℝ) < x := by rw [hx]; nlinarith
  have hx_le1 : x ≤ 1 := by nlinarith
  set s : ℝ := Real.sin x with hs
  set c : ℝ := Real.cos x with hc
  have hs_pos : 0 < s := Real.sin_pos_of_pos_of_lt_pi hx_pos (by nlinarith)
  have hs_lt : s < x := Real.sin_lt hx_pos
  have hs_gt : x - x ^ 3 / 4 < s := Real.sin_gt_sub_cube hx_pos hx_le1
  have hx3 : x ^ 3 < 0.0175 ^ 3 :=
    pow_lt_pow_left₀ hx_lt (le_of_lt hx_pos) (by norm_num)
  have hs_gt' : (0.0174 : ℝ) < s := by nlinarith
  have hc_pos : 0 < c := Real.cos_pos_of_mem_Ioo ⟨by nlinarith, by nlinarith⟩
  have hc_le : c ≤ 1 := Real.cos_le_one x
  have hθ : (89 : ℝ) * Real.pi / 180 = Real.pi / 2 - x := by rw [hx]; ring
  have hcosθ : Real.cos (89 * Real.pi / 180) = s := by
    rw [hθ, Real.cos_pi_div_two_sub]
  have hsinθ : Real.sin (89 * Real.pi / 180) = c := by
    rw [hθ, Real.sin_pi_div_two_sub]
  set T : ℝ := Real.tan (89 * Real.pi / 180) + 1 / Real.cos (89 * Real.pi / 180) with hT
  have hT_eq : T = (c + 1) / s := by
    rw [hT, Real.tan_eq_sin_div_cos, hsinθ, hcosθ]
    field_simp
  have hT_gt : (55 : ℝ) < T := by
    rw [hT_eq, lt_div_iff₀ hs_pos]
    nlinarith
  have hT_lt : T < 115 := by
    rw [hT_eq, div_lt_iff₀ hs_pos]
    nlinarith
  have hT_pos : 0 < T := by linarith
  have hexp1_lt : Real.exp 1 < 2.7182818286 := Real.exp_one_lt_d9
  have hexp1_gt : (2.7182818283 : ℝ) < Real.exp 1 := Real.exp_one_gt_d9
  have hexp1_pos : (0:ℝ) < Real.exp 1 := Real.exp_pos 1
  have hexp4 : Real.exp 4 = Real.exp 1 ^ 4 := by
    rw [show (4:ℝ) = (4:ℕ) * 1 by norm_num, Real.exp_nat_mul]
  have hexp6 : Real.exp 6 = Real.exp 1 ^ 6 := by
    rw [show (6:ℝ) = (6:ℕ) * 1 by norm_num, Real.exp_nat_mul]
  have hexp4_lt : Real.exp 4 < 55 := by
    rw [hexp4]
    have h1 : Real.exp 1 ^ 4 < 2.7182818286 ^ 4 :=
      pow_lt_pow_left₀ hexp1_lt (le_of_lt hexp1_pos) (by norm_num)
    have h2 : (2.7182818286 : ℝ) ^ 4 < 55 := by norm_num
    linarith
  have hexp6_gt : (115 : ℝ) < Real.exp 6 := by
    rw [hexp6]
    have h1 : (2.7182818283:ℝ) ^ 6 < Real.exp 1 ^ 6 :=
      pow_lt_pow_left₀ hexp1_gt (by norm_num) (by norm_num)
    have h2 : (115 : ℝ) < (2.7182818283:ℝ) ^ 6 := by norm_num
    linarith
  have hlog_gt : Real.pi < Real.log T := by
    rw [Real.lt_log_iff_exp_lt hT_pos]
    have h1 : Real.exp Real.pi < Real.exp 4 := Real.exp_lt_exp.mpr (by nlinarith)
    linarith
  have hlog_lt : Real.log T < 2 * Real.pi := by
    rw [Real.log_lt_iff_lt_exp hT_pos]
    have h1 : Real.exp 6 ≤ Real.exp (2 * Real.pi) := Real.exp_le_exp.mpr (by nlinarith)
    linarith
  have hyval : (latlon_to_tile_fraction 89 0 1).2 = 1 - Real.log T / Real.pi := by
    unfold latlon_to_tile_fraction
    rw [← hT]
    push_cast
    ring
  have hy_neg : (latlon_to_tile_fraction 89 0 1).2 < 0 := by
    rw [hyval]
    have h1 : 1 < Real.log T / Real.pi := (one_lt_div hpi).mpr hlog_gt
    linarith
  have hy_gt : (-1 : ℝ) < (latlon_to_tile_fraction 89 0 1).2 := by
    rw [hyval]
    have h1 : Real.log T / Real.pi < 2 := (div_lt_iff₀ hpi).mpr (by linarith)
    linarith
  intro heq
  have h2 := congrArg Prod.snd heq
  simp only [latlon_to_tile] at h2
  rw [pyTrunc, if_neg (by linarith : ¬(0:ℝ) ≤ (latlon_to_tile_fraction 89 0 1).2)] at h2
  have hceil : ⌈(latlon_to_tile_fraction 89 0 1).2⌉ = 0 := by
    apply Int.ceil_eq_zero_iff.mpr
    constructor
    · linarith
    · linarith
  have hfloor : ⌊(latlon_to_tile_fraction 89 0 1).2⌋ = -1 := by
    apply Int.floor_eq_iff.mpr
    constructor
    · push_cast; linarith
    · push_cast; linarith
  rw [hceil, hfloor] at h2
  exact absurd h2 (by norm_num)

/-- Row count: the number of `x < w` with `x + y` even, as an indicator
sum: `(w+1)/2` for even `y`, `w/2` for odd `y`. -/
theorem row_indicator (w y : ℕ) :
    (∑ x ∈ Finset.range w, (if (x + y) % 2 = 0 then (1 : ℚ) else 0)) =
      if y % 2 = 0 then (((w + 1) / 2 : ℕ) : ℚ) else ((w / 2 : ℕ) : ℚ) := by
  induction w with
  | zero => by_cases hy : y % 2 = 0 <;> simp [hy]
  | succ w ih =>
      rw [Finset.sum_range_succ, ih]
      by_cases hy : y % 2 = 0 <;> by_cases hw : w % 2 = 0
      · have h1 : (w + y) % 2 = 0 := by omega
        have h2 : (w + 1 + 1) / 2 = (w + 1) / 2 + 1 := by omega
        simp [hy, hw, h1, h2]
      · have h1 : (w + y) % 2 = 1 := by omega
        have h2 : (w + 1 + 1) / 2 = (w + 1) / 2 := by omega
        simp [hy, hw, h1, h2]
      · have h1 : (w + y) % 2 = 1 := by omega
        have h2 : (w + 1) / 2 = w / 2 := by omega
        simp [hy, hw, h1, h2]
      · have h1 : (w + y) % 2 = 0 := by omega
        have h2 : (w + 1) / 2 = w / 2 + 1 := by omega
        simp [hy, hw, h1, h2]

/-- Grid count of the checkerboard's white cells:
`#{(x,y) : x < w, y < h, x + y even} = ec w * ec h + oc w * oc h` with
`ec m = (m+1)/2` and `oc m = m/2`. -/
theorem grid_indicator (w h : ℕ) :
    (∑ y ∈ Finset.range h, ∑ x ∈ Finset.range w,
        (if (x + y) % 2 = 0 then (1 : ℚ) else 0)) =
      (((w + 1) / 2 : ℕ) : ℚ) * (((h + 1) / 2 : ℕ) : ℚ) +
        ((w / 2 : ℕ) : ℚ) * ((h / 2 : ℕ) : ℚ) := by
  induction h with
  | zero => simp
  | succ h ih =>
      rw [Finset.sum_range_succ, ih, row_indicator]
      by_cases hh : h % 2 = 0
      · have h1 : (h + 1 + 1) / 2 = (h + 1) / 2 + 1 := by omega
        have h2 : (h + 1) / 2 = h / 2 := by omega
        simp only [hh, if_true, h1]
        push_cast [h2]
        ring
      · have h1 : (h + 1 + 1) / 2 = (h + 1) / 2 := by omega
        have h2 : (h + 1) / 2 = h / 2 + 1 := by omega
        simp only [hh, if_false]
        push_cast [h1, h2]
        ring



/-- A checkerboard-patterned sum of two constants, in terms of the white
cell count `E` and total `w*h`. -/
theorem sum_ite_grid (w h : ℕ) (c₁ c₂ : ℚ) :
    (∑ y ∈ Finset.range h, ∑ x ∈ Finset.range w,
        (if (x + y) % 2 = 0 then c₁ else c₂)) =
      c₂ * ((w : ℚ) * (h : ℚ)) + (c₁ - c₂) *
        ((((w + 1) / 2 : ℕ) : ℚ) * (((h + 1) / 2 : ℕ) : ℚ) +
          ((w / 2 : ℕ) : ℚ) * ((h / 2 : ℕ) : ℚ)) := by
  have hpt : ∀ x y : ℕ, (if (x + y) % 2 = 0 then c₁ else c₂) =
      c₂ + (c₁ - c₂) * (if (x + y) % 2 = 0 then (1 : ℚ) else 0) := by
    intro x y
    split_ifs <;> ring
  calc (∑ y ∈ Finset.range h, ∑ x ∈ Finset.range w,
          (if (x + y) % 2 = 0 then c₁ else c₂))
      = ∑ y ∈ Finset.range h, ∑ x ∈ Finset.range w,
          (c₂ + (c₁ - c₂) * (if (x + y) % 2 = 0 then (1 : ℚ) else 0)) := by
        apply Finset.sum_congr rfl
        intro y _
        exact Finset.sum_congr rfl fun x _ => hpt x y
    _ = ∑ y ∈ Finset.range h, ((w : ℚ) * c₂ + (c₁ - c₂) *
          ∑ x ∈ Finset.range w, (if (x + y) % 2 = 0 then (1 : ℚ) else 0)) := by
        apply Finset.sum_congr rfl
        intro y _
        rw [Finset.sum_add_distrib, Finset.sum_const, Finset.card_range,
          ← Finset.mul_sum]
        simp [nsmul_eq_mul]
    _ = (h : ℚ) * ((w : ℚ) * c₂) + (c₁ - c₂) *
          ∑ y ∈ Finset.range h, ∑ x ∈ Finset.range w,
            (if (x + y) % 2 = 0 then (1 : ℚ) else 0) := by
        rw [Finset.sum_add_distrib, Finset.sum_const, Finset.card_range,
          ← Finset.mul_sum]
        simp [nsmul_eq_mul]
    _ = _ := by rw [grid_indicator]; ring



/-- Whole-number bounds for the checkerboard cell counts: with
`E = ec w * ec h + oc w * oc h` white cells and `O` black cells,
`3E ≤ 2wh`, `500(wh)² ≤ 65025·E·O`, and `E + O = wh`. -/
theorem checker_count_bounds (w h : ℕ) (h2 : 2 ≤ w * h) :
    3 * ((w + 1) / 2 * ((h + 1) / 2) + w / 2 * (h / 2)) ≤ 2 * (w * h) ∧
    500 * (w * h) ^ 2 ≤
      65025 * ((w + 1) / 2 * ((h + 1) / 2) + w / 2 * (h / 2)) *
        ((w + 1) / 2 * (h / 2) + w / 2 * ((h + 1) / 2)) ∧
    ((w + 1) / 2 * ((h + 1) / 2) + w / 2 * (h / 2)) +
      ((w + 1) / 2 * (h / 2) + w / 2 * ((h + 1) / 2)) = w * h := by
  rcases Nat.even_or_odd w with ⟨p, hp⟩ | ⟨p, hp⟩ <;>
    rcases Nat.even_or_odd h with ⟨q, hq⟩ | ⟨q, hq⟩ <;> subst hp <;> subst hq
  · have ha : (p + p + 1) / 2 = p := by omega
    have hb : (p + p) / 2 = p := by omega
    have hc : (q + q + 1) / 2 = q := by omega
    have hd : (q + q) / 2 = q := by omega
    rw [ha, hb, hc, hd]
    refine ⟨by nlinarith, by nlinarith, by ring⟩
  · have ha : (p + p + 1) / 2 = p := by omega
    have hb : (p + p) / 2 = p := by omega
    have hc : (2 * q + 1 + 1) / 2 = q + 1 := by omega
    have hd : (2 * q + 1) / 2 = q := by omega
    rw [ha, hb, hc, hd]
    refine ⟨by nlinarith, by nlinarith, by ring⟩
  · have ha : (2 * p + 1 + 1) / 2 = p + 1 := by omega
    have hb : (2 * p + 1) / 2 = p := by omega
    have hc : (q + q + 1) / 2 = q := by omega
    have hd : (q + q) / 2 = q := by omega
    rw [ha, hb, hc, hd]
    refine ⟨by nlinarith, by nlinarith, by ring⟩
  · have ha : (2 * p + 1 + 1) / 2 = p + 1 := by omega
    have hb : (2 * p + 1) / 2 = p := by omega
    have hc : (2 * q + 1 + 1) / 2 = q + 1 := by omega
    have hd : (2 * q + 1) / 2 = q := by omega
    rw [ha, hb, hc, hd]
    have hpq : 1 ≤ p + q + p * q := by nlinarith
    refine ⟨by nlinarith, by nlinarith, by ring⟩



/-- A nonempty uniform (200,200,200) raster is flagged as a placeholder. -/
theorem uniform_gray_is_no_data (w h : ℕ) (hw : 0 < w) (hh : 0 < h) :
    is_no_data_tile (some (.rgb (uniformImg w h (200, 200, 200)))) = true := by
  have hn : ((w : ℚ) * (h : ℚ)) ≠ 0 := by positivity
  have hcs1 : (channelSums (uniformImg w h (200, 200, 200))).1 = 200 * ((w : ℚ) * h) := by
    simp [channelSums, uniformImg, Finset.sum_const, Finset.card_range, mul_comm,
      mul_assoc, mul_left_comm]
  have hcs2 : (channelSums (uniformImg w h (200, 200, 200))).2.1 = 200 * ((w : ℚ) * h) := by
    simp [channelSums, uniformImg, Finset.sum_const, Finset.card_range, mul_comm,
      mul_assoc, mul_left_comm]
  have hcs3 : (channelSums (uniformImg w h (200, 200, 200))).2.2 = 200 * ((w : ℚ) * h) := by
    simp [channelSums, uniformImg, Finset.sum_const, Finset.card_range, mul_comm,
      mul_assoc, mul_left_comm]
  have hvar : pixelVariance (uniformImg w h (200, 200, 200)) = 0 := by
    simp only [pixelVariance, hcs1, hcs2, hcs3]
    have hmu : (200 * ((w : ℚ) * h) + 200 * ((w : ℚ) * h) + 200 * ((w : ℚ) * h)) /
        (3 * (((uniformImg w h (200, 200, 200)).w : ℚ) *
          ((uniformImg w h (200, 200, 200)).h : ℚ))) = 200 := by
      show (200 * ((w : ℚ) * h) + 200 * ((w : ℚ) * h) + 200 * ((w : ℚ) * h)) /
        (3 * ((w : ℚ) * (h : ℚ))) = 200
      field_simp
      ring
    rw [hmu]
    simp [uniformImg]
  have hmean1 : (meanColor (uniformImg w h (200, 200, 200))).1 = 200 := by
    simp only [meanColor, hcs1]
    show 200 * ((w : ℚ) * h) / ((w : ℚ) * (h : ℚ)) = 200
    field_simp
  have hmean2 : (meanColor (uniformImg w h (200, 200, 200))).2.1 = 200 := by
    simp only [meanColor, hcs2]
    show 200 * ((w : ℚ) * h) / ((w : ℚ) * (h : ℚ)) = 200
    field_simp
  have hmean3 : (meanColor (uniformImg w h (200, 200, 200))).2.2 = 200 := by
    simp only [meanColor, hcs3]
    show 200 * ((w : ℚ) * h) / ((w : ℚ) * (h : ℚ)) = 200
    field_simp
  have hgray : isGrayCheck (uniformImg w h (200, 200, 200)) = true := by
    simp only [isGrayCheck, hmean1, hmean2, hmean3]
    norm_num
  have huni : isUniformCheck (uniformImg w h (200, 200, 200)) = true := by
    simp only [isUniformCheck, hvar]
    norm_num
  simp [is_no_data_tile, hgray, huni]



/-- Each colour channel of the checkerboard sums to `255 · E` where `E`
is the white-cell count. -/
theorem checker_channel_sum (w h : ℕ) (f : ℕ × ℕ × ℕ → ℕ)
    (hf1 : f (255, 255, 255) = 255) (hf0 : f (0, 0, 0) = 0) :
    (∑ y ∈ Finset.range h, ∑ x ∈ Finset.range w,
        ((f ((checkerImg w h).px x y) : ℕ) : ℚ)) =
      255 * ((((w + 1) / 2 : ℕ) : ℚ) * (((h + 1) / 2 : ℕ) : ℚ) +
        ((w / 2 : ℕ) : ℚ) * ((h / 2 : ℕ) : ℚ)) := by
  have hpt : ∀ x y : ℕ, ((f ((checkerImg w h).px x y) : ℕ) : ℚ) =
      (if (x + y) % 2 = 0 then (255 : ℚ) else 0) := by
    intro x y
    simp only [checkerImg]
    split_ifs with hp
    · rw [hf1]; norm_num
    · rw [hf0]; norm_num
  calc (∑ y ∈ Finset.range h, ∑ x ∈ Finset.range w,
          ((f ((checkerImg w h).px x y) : ℕ) : ℚ))
      = ∑ y ∈ Finset.range h, ∑ x ∈ Finset.range w,
          (if (x + y) % 2 = 0 then (255 : ℚ) else 0) := by
        exact Finset.sum_congr rfl fun y _ => Finset.sum_congr rfl fun x _ => hpt x y
    _ = _ := by rw [sum_ite_grid]; ring



/-- The squared-deviation sum of the checkerboard against any value `mu`. -/
theorem checker_sq_sum (w h : ℕ) (mu : ℚ) :
    (∑ y ∈ Finset.range h, ∑ x ∈ Finset.range w,
        (((((checkerImg w h).px x y).1 : ℚ) - mu) ^ 2 +
          ((((checkerImg w h).px x y).2.1 : ℚ) - mu) ^ 2 +
          ((((checkerImg w h).px x y).2.2 : ℚ) - mu) ^ 2)) =
      3 * mu ^ 2 * ((w : ℚ) * (h : ℚ)) + (3 * (255 - mu) ^ 2 - 3 * mu ^ 2) *
        ((((w + 1) / 2 : ℕ) : ℚ) * (((h + 1) / 2 : ℕ) : ℚ) +
          ((w / 2 : ℕ) : ℚ) * ((h / 2 : ℕ) : ℚ)) := by
  have hpt : ∀ x y : ℕ,
      (((((checkerImg w h).px x y).1 : ℚ) - mu) ^ 2 +
        ((((checkerImg w h).px x y).2.1 : ℚ) - mu) ^ 2 +
        ((((checkerImg w h).px x y).2.2 : ℚ) - mu) ^ 2) =
      (if (x + y) % 2 = 0 then 3 * (255 - mu) ^ 2 else 3 * mu ^ 2) := by
    intro x y
    simp only [checkerImg]
    split_ifs with hp
    · norm_num; ring
    · norm_num; ring
  calc (∑ y ∈ Finset.range h, ∑ x ∈ Finset.range w,
          (((((checkerImg w h).px x y).1 : ℚ) - mu) ^ 2 +
            ((((checkerImg w h).px x y).2.1 : ℚ) - mu) ^ 2 +
            ((((checkerImg w h).px x y).2.2 : ℚ) - mu) ^ 2))
      = ∑ y ∈ Finset.range h, ∑ x ∈ Finset.range w,
          (if (x + y) % 2 = 0 then 3 * (255 - mu) ^ 2 else 3 * mu ^ 2) :=
        Finset.sum_congr rfl fun y _ => Finset.sum_congr rfl fun x _ => hpt x y
    _ = _ := by rw [sum_ite_grid]

/-- A checkerboard with at least two pixels is never flagged as a
placeholder. -/
theorem checker_not_no_data (w h : ℕ) (hwh : 2 ≤ w * h) :
    is_no_data_tile (some (.rgb (checkerImg w h))) = false := by
  have hw : 0 < w := by
    rcases Nat.eq_zero_or_pos w with rfl | hw
    · simp at hwh
    · exact hw
  have hh : 0 < h := by
    rcases Nat.eq_zero_or_pos h with rfl | hh
    · simp at hwh
    · exact hh
  have hW : (checkerImg w h).w = w := rfl
  have hH : (checkerImg w h).h = h := rfl
  set En : ℕ := (w + 1) / 2 * ((h + 1) / 2) + w / 2 * (h / 2) with hEn
  set On : ℕ := (w + 1) / 2 * (h / 2) + w / 2 * ((h + 1) / 2) with hOn
  obtain ⟨hb1, hb2, hb3⟩ := checker_count_bounds w h hwh
  have hnpos : (0 : ℚ) < (w : ℚ) * (h : ℚ) := by positivity
  have hEq : (((w + 1) / 2 : ℕ) : ℚ) * (((h + 1) / 2 : ℕ) : ℚ) +
      ((w / 2 : ℕ) : ℚ) * ((h / 2 : ℕ) : ℚ) = (En : ℚ) := by
    rw [hEn]; push_cast; ring
  have hcs1 : (channelSums (checkerImg w h)).1 = 255 * (En : ℚ) :=
    (checker_channel_sum w h Prod.fst rfl rfl).trans (by rw [hEq])
  have hcs2 : (channelSums (checkerImg w h)).2.1 = 255 * (En : ℚ) :=
    (checker_channel_sum w h (fun t => t.2.1) rfl rfl).trans (by rw [hEq])
  have hcs3 : (channelSums (checkerImg w h)).2.2 = 255 * (En : ℚ) :=
    (checker_channel_sum w h (fun t => t.2.2) rfl rfl).trans (by rw [hEq])
  have hEOn : (En : ℚ) + (On : ℚ) = (w : ℚ) * (h : ℚ) := by exact_mod_cast hb3
  have hvar : pixelVariance (checkerImg w h) =
      65025 * (En : ℚ) * (On : ℚ) / ((w : ℚ) * (h : ℚ)) ^ 2 := by
    simp only [pixelVariance, hcs1, hcs2, hcs3, hW, hH]
    rw [checker_sq_sum, hEq]
    have hO : (On : ℚ) = (w : ℚ) * (h : ℚ) - (En : ℚ) := by linarith
    rw [hO]
    field_simp
    ring
  have huni : isUniformCheck (checkerImg w h) = false := by
    simp only [isUniformCheck, hvar, decide_eq_false_iff_not, not_lt]
    rw [le_div_iff₀ (by positivity)]
    have hcast : (500 : ℚ) * ((w : ℚ) * (h : ℚ)) ^ 2 ≤ 65025 * (En : ℚ) * (On : ℚ) := by
      exact_mod_cast hb2
    linarith
  have hgraythr : grayThresholdCheck (checkerImg w h) = false := by
    simp only [grayThresholdCheck, meanColor, hcs1, hcs2, hcs3, hW, hH,
      decide_eq_false_iff_not]
    intro hcon
    obtain ⟨h1, _, _⟩ := hcon
    have hble : (3 : ℚ) * (En : ℚ) ≤ 2 * ((w : ℚ) * (h : ℚ)) := by exact_mod_cast hb1
    have hEle : (255 : ℚ) * (En : ℚ) / ((w : ℚ) * (h : ℚ)) ≤ 170 := by
      rw [div_le_iff₀ hnpos]
      linarith
    have hlow := (abs_lt.mp h1).1
    linarith
  simp [is_no_data_tile, huni, hgraythr]



/-- C7. Any nonempty RGB raster uniformly of colour (200,200,200) is
flagged as a placeholder, and any black/white checkerboard raster
containing at least two pixels (so both colours actually alternate) is
never flagged. -/
theorem c7_placeholder_detector (w h : ℕ) (hw : 0 < w) (hh : 0 < h) :
    is_no_data_tile (some (.rgb (uniformImg w h (200, 200, 200)))) = true ∧
      (2 ≤ w * h → is_no_data_tile (some (.rgb (checkerImg w h))) = false) :=
  ⟨uniform_gray_is_no_data w h hw hh, fun h2 => checker_not_no_data w h h2⟩

/-- Closed instance of `c7_placeholder_detector` on 2×2 rasters. -/
theorem c7_placeholder_detector_witness :
    is_no_data_tile (some (.rgb (uniformImg 2 2 (200, 200, 200)))) = true ∧
      (2 ≤ 2 * 2 → is_no_data_tile (some (.rgb (checkerImg 2 2))) = false) :=
  c7_placeholder_detector 2 2 (by norm_num) (by norm_num)

end SolarPV
